import Mathlib

/-! cc-image-editor: the batch export geometry and the bookkeeping of the editor.

A shallow embedding of `src/public/script.js` (class `ImageEditor`).

Numbers: the script computes with JavaScript numbers.  `JSNum` models them with
an exact rational for every finite value, together with `NaN`, the two
infinities and the negative zero, so that a division by zero, a comparison with
`NaN` and the sign of a zero behave as in the script; the rounding of finite
results to doubles is not modelled.  The fit is also given over plain rationals
(`onloadFit`), which is what `JSNum` computes on positive finite operands.

Canvas: assigning `canvas.width` or `canvas.height` converts the number to an
unsigned 32-bit integer and stores the default size when that exceeds
2^31 - 1; the script reads the stored size back.

Asynchrony: `FileReader`, `Image` decoding and `setTimeout` continuations are
modelled by explicit state passing; the outcome of each decode is a parameter.
-/

namespace ImageEditor

/-! ## Data model -/

/-- Browser file handle, reduced to the two fields the script reads
(`file.name`, `file.type`). -/
structure File where
  name : String
  type : String
deriving DecidableEq

/-- Decoded image element, reduced to its pixel size (`img.width`, `img.height`). -/
structure Image where
  width : ℕ
  height : ℕ
deriving DecidableEq

/-- Entry of `this.images`, as pushed by `processFiles`. -/
structure ImageItem where
  file : File
  image : Image
  src : String
deriving DecidableEq

/-- Arguments of one `showToast(text, type)` call. -/
structure Toast where
  text : String
  type : String
deriving DecidableEq

/-- Rectangle of four rationals: the arguments of `drawImage` when all four are
finite numbers. -/
structure DrawRect where
  drawX : ℚ
  drawY : ℚ
  drawWidth : ℚ
  drawHeight : ℚ
deriving DecidableEq

/-! ## The fit computation of `exportBatch` over rationals (lines 391-407) -/

/-- Body of `tempImg.onload` between the comments "计算绘制区域" and "绘制图片",
in exact rational arithmetic: `imgW`, `imgH` are `tempImg.width`,
`tempImg.height`; `canvasW`, `canvasH` are `tempCanvas.width`,
`tempCanvas.height`; `targetAspectRatio` is the constant captured from the
enclosing `exportBatch`.  It is what the script computes when every operand is
finite and no divisor is zero (`onloadRect` is the fit on all numbers). -/
def onloadFit (imgW imgH canvasW canvasH targetAspectRatio : ℚ) : DrawRect :=
  let imgAspectRatio := imgW / imgH
  if imgAspectRatio > targetAspectRatio then
    let drawHeight := canvasH
    let drawWidth := canvasH * imgAspectRatio
    let drawX := (canvasW - drawWidth) / 2
    let drawY := 0
    { drawX := drawX, drawY := drawY, drawWidth := drawWidth, drawHeight := drawHeight }
  else
    let drawWidth := canvasW
    let drawHeight := canvasW / imgAspectRatio
    let drawX := 0
    let drawY := (canvasH - drawHeight) / 2
    { drawX := drawX, drawY := drawY, drawWidth := drawWidth, drawHeight := drawHeight }

/-- Fit step over rationals for a canvas that holds the target size
(`tempCanvas.width = targetWidth`, `tempCanvas.height = targetHeight` read back
unchanged) and `targetAspectRatio = targetWidth / targetHeight`.  `batchFit` is
the fit step with the read-back of the canvas. -/
def fitStep (sw sh tw th : ℚ) : DrawRect :=
  let targetWidth := tw
  let targetHeight := th
  let targetAspectRatio := targetWidth / targetHeight
  onloadFit sw sh targetWidth targetHeight targetAspectRatio

/-- Reference algorithm of the specification (section 4.1, "Algorithm"), written
from the specification's words, for comparison with the fit of the script. -/
def specFitRect (sw sh tw th : ℚ) : DrawRect :=
  let sourceRatio := sw / sh
  let targetRatio := tw / th
  if sourceRatio > targetRatio then
    { drawHeight := th
      drawWidth := th * sourceRatio
      drawX := (tw - th * sourceRatio) / 2
      drawY := 0 }
  else
    { drawWidth := tw
      drawHeight := tw / sourceRatio
      drawX := 0
      drawY := (th - tw / sourceRatio) / 2 }

/-! ## JavaScript numbers -/

/-- JavaScript number.  A finite value is an exact rational: `fin 0` is the
positive zero and `negZero` the negative zero. -/
inductive JSNum where
  | nan
  | posInf
  | negInf
  | negZero
  | fin (q : ℚ)
deriving DecidableEq

namespace JSNum

/-- Number with an integer value, as `parseInt` returns on a numeric string. -/
def ofInt (z : ℤ) : JSNum :=
  fin (z : ℚ)

/-- Number with a natural value, as the size attributes of an element hold. -/
def ofNat (n : ℕ) : JSNum :=
  fin (n : ℚ)

/-- Whether the number is `NaN`. -/
def isNaN : JSNum → Bool
  | nan => true
  | _ => false

/-- Whether the number is one of the two infinities. -/
def isInf : JSNum → Bool
  | posInf => true
  | negInf => true
  | _ => false

/-- Whether the number is one of the two zeros. -/
def isZero : JSNum → Bool
  | negZero => true
  | fin q => decide (q = 0)
  | _ => false

/-- Sign bit: set on negative values, on the negative infinity and on the
negative zero. -/
def signBit : JSNum → Bool
  | negInf => true
  | negZero => true
  | fin q => decide (q < 0)
  | _ => false

/-- Value of a finite number (0 for both zeros). -/
def value : JSNum → ℚ
  | fin q => q
  | _ => 0

/-- Zero of the given sign. -/
def signedZero (negative : Bool) : JSNum :=
  if negative then negZero else fin 0

/-- Infinity of the given sign. -/
def signedInf (negative : Bool) : JSNum :=
  if negative then negInf else posInf

/-- JavaScript `a / b`. -/
def div (a b : JSNum) : JSNum :=
  if a.isNaN || b.isNaN then nan
  else if a.isInf then
    if b.isInf then nan else signedInf (a.signBit != b.signBit)
  else if b.isInf then signedZero (a.signBit != b.signBit)
  else if b.isZero then
    if a.isZero then nan else signedInf (a.signBit != b.signBit)
  else if a.isZero then signedZero (a.signBit != b.signBit)
  else fin (a.value / b.value)

/-- JavaScript `a * b`. -/
def mul (a b : JSNum) : JSNum :=
  if a.isNaN || b.isNaN then nan
  else if a.isInf || b.isInf then
    if a.isZero || b.isZero then nan else signedInf (a.signBit != b.signBit)
  else if a.isZero || b.isZero then signedZero (a.signBit != b.signBit)
  else fin (a.value * b.value)

/-- JavaScript `a - b`.  A zero difference is the positive zero, except for the
negative zero minus the positive zero. -/
def sub (a b : JSNum) : JSNum :=
  if a.isNaN || b.isNaN then nan
  else if a.isInf then
    if b.isInf && (a.signBit == b.signBit) then nan else a
  else if b.isInf then signedInf (!b.signBit)
  else if a.value - b.value = 0 then
    if a = negZero ∧ b.signBit = false then negZero else fin 0
  else fin (a.value - b.value)

/-- JavaScript `a > b`: false when either side is `NaN`; the two zeros compare
equal. -/
def gt (a b : JSNum) : Bool :=
  if a.isNaN || b.isNaN then false
  else if a = posInf then decide (b ≠ posInf)
  else if b = posInf then false
  else if a = negInf then false
  else if b = negInf then true
  else decide (a.value > b.value)

/-- Integer part of a rational: rounding towards zero. -/
def truncate (q : ℚ) : ℤ :=
  if 0 ≤ q then ⌊q⌋ else ⌈q⌉

/-- Conversion of a number to an unsigned 32-bit integer, as applied to a value
assigned to an `unsigned long` attribute: `NaN` and the infinities give 0, a
finite value is truncated and reduced modulo 2^32. -/
def toUnsignedLong : JSNum → ℕ
  | fin q => (truncate q % 4294967296).toNat
  | _ => 0

end JSNum

/-- What `canvas.width` (fallback 300) or `canvas.height` (fallback 150) reads
after `v` was assigned to it: the unsigned 32-bit conversion of `v` when that is
at most 2^31 - 1, the fallback otherwise. -/
def canvasReadBack (fallback : ℕ) (v : JSNum) : ℕ :=
  let u := JSNum.toUnsignedLong v
  if u ≤ 2147483647 then u else fallback

/-- Arguments `drawX, drawY, drawWidth, drawHeight` of the `drawImage` call. -/
structure JSRect where
  drawX : JSNum
  drawY : JSNum
  drawWidth : JSNum
  drawHeight : JSNum
deriving DecidableEq

/-- Rectangle of four finite numbers. -/
def JSRect.ofRat (r : DrawRect) : JSRect :=
  { drawX := JSNum.fin r.drawX, drawY := JSNum.fin r.drawY
    drawWidth := JSNum.fin r.drawWidth, drawHeight := JSNum.fin r.drawHeight }

/-! ## The fit computation of `exportBatch` (lines 391-407) -/

/-- Guard of the fit, line 395: `imgAspectRatio > targetAspectRatio`. -/
def isWider (imgAspectRatio targetAspectRatio : JSNum) : Bool :=
  JSNum.gt imgAspectRatio targetAspectRatio

/-- First branch of the fit, lines 396-400 ("图片较宽，按高度缩放"). -/
def scaleByHeight (canvasW canvasH : ℕ) (imgAspectRatio : JSNum) : JSRect :=
  let drawHeight := JSNum.ofNat canvasH
  let drawWidth := JSNum.mul (JSNum.ofNat canvasH) imgAspectRatio
  let drawX := JSNum.div (JSNum.sub (JSNum.ofNat canvasW) drawWidth) (JSNum.ofNat 2)
  let drawY := JSNum.ofNat 0
  { drawX := drawX, drawY := drawY, drawWidth := drawWidth, drawHeight := drawHeight }

/-- Else branch of the fit, lines 402-406 ("图片较高，按宽度缩放"). -/
def scaleByWidth (canvasW canvasH : ℕ) (imgAspectRatio : JSNum) : JSRect :=
  let drawWidth := JSNum.ofNat canvasW
  let drawHeight := JSNum.div (JSNum.ofNat canvasW) imgAspectRatio
  let drawX := JSNum.ofNat 0
  let drawY := JSNum.div (JSNum.sub (JSNum.ofNat canvasH) drawHeight) (JSNum.ofNat 2)
  { drawX := drawX, drawY := drawY, drawWidth := drawWidth, drawHeight := drawHeight }

/-- Body of `tempImg.onload` from line 392 to line 407: `imgW`, `imgH` are
`tempImg.width`, `tempImg.height`; `canvasW`, `canvasH` are what
`tempCanvas.width`, `tempCanvas.height` read; `targetAspectRatio` is the
constant captured from the enclosing `exportBatch`. -/
def onloadRect (imgW imgH : JSNum) (canvasW canvasH : ℕ) (targetAspectRatio : JSNum) :
    JSRect :=
  let imgAspectRatio := JSNum.div imgW imgH
  if isWider imgAspectRatio targetAspectRatio then
    scaleByHeight canvasW canvasH imgAspectRatio
  else
    scaleByWidth canvasW canvasH imgAspectRatio

/-- Fit step of one batch item as `exportBatch` runs it, for a decoded image of
size `imgW` x `imgH` and the parsed target fields: the canvas is assigned the
target size (lines 388-389) and read back (lines 397-406), and
`targetAspectRatio = targetWidth / targetHeight` (line 364). -/
def batchFit (imgW imgH targetWidth targetHeight : JSNum) : JSRect :=
  let targetAspectRatio := JSNum.div targetWidth targetHeight
  let canvasW := canvasReadBack 300 targetWidth
  let canvasH := canvasReadBack 150 targetHeight
  onloadRect imgW imgH canvasW canvasH targetAspectRatio

/-! ## Editor state -/

/-- One click on the temporary download link built by `exportBatch`: the file
name (`link.download`), the size of the canvas that was encoded and the
rectangle the source was drawn at. -/
structure Download where
  download : String
  canvasWidth : ℕ
  canvasHeight : ℕ
  rect : JSRect
deriving DecidableEq

/-- Fields of the `ImageEditor` instance together with the parts of the page it
reads and writes: the two dimension fields (as parsed by `parseInt`), the
keep-ratio checkbox, and traces of the effects it causes (toasts shown, file
reads started, downloads triggered, `console.error` lines). -/
structure Editor where
  images : List ImageItem
  currentImageIndex : ℤ
  aspectRatio : ℚ
  isProcessing : Bool
  widthInput : ℤ
  heightInput : ℤ
  keepRatio : Bool
  toasts : List Toast
  reads : List File
  downloads : List Download
  consoleErrors : List String
deriving DecidableEq

/-- Method `showToast(text, type)`: recorded in the trace of toasts. -/
def showToast (s : Editor) (text type : String) : Editor :=
  { s with toasts := s.toasts ++ [{ text := text, type := type }] }

/-- Method `showLoading()`: raises the overlay and sets `isProcessing`. -/
def showLoading (s : Editor) : Editor :=
  { s with isProcessing := true }

/-- Method `hideLoading()`: drops the overlay and clears `isProcessing`. -/
def hideLoading (s : Editor) : Editor :=
  { s with isProcessing := false }

/-! ## Upload: `processFiles` (lines 79-118) -/

/-- JavaScript `s.startsWith(searchString)`. -/
def startsWith (s searchString : String) : Bool :=
  searchString.toList.isPrefixOf s.toList

/-- The filter of `processFiles`: `file.type.startsWith('image/')`. -/
def isImageFile (file : File) : Bool :=
  startsWith file.type "image/"

/-- Synchronous part of `processFiles(files)`: filter, the two guards, then one
`reader.readAsDataURL(file)` per valid file.  (`images` only grows later, in the
`img.onload` continuation of a started read.) -/
def processFiles (s : Editor) (files : List File) : Editor :=
  let validFiles := files.filter isImageFile
  if validFiles.length = 0 then
    showToast s "请选择有效的图片文件" "error"
  else if validFiles.length > 50 then
    showToast s "最多支持上传50张图片" "error"
  else
    let s1 := showLoading s
    { s1 with reads := s1.reads ++ validFiles }

/-! ## Selection and removal (lines 145-190) -/

/-- Method `selectImage(index)`.  It dereferences the `index`-th `.image-item`
node, of which the page holds one per entry of `images`; outside that range the
script throws, modelled by `none`. -/
def selectImage (s : Editor) (index : ℤ) : Option Editor :=
  if 0 ≤ index ∧ index < s.images.length then
    some { s with currentImageIndex := index }
  else
    none

/-- Method `updateImageList()`: the list is redrawn and, when exactly one image
is present, it is selected. -/
def updateImageList (s : Editor) : Option Editor :=
  if s.images.length = 1 then selectImage s 0 else some s

/-- Toast text of `removeImage`. -/
def removedText (removedFile : String) : String :=
  "已删除图片: " ++ removedFile

/-- Method `removeImage(index)`.  `none` models the `TypeError` of reading
`this.images[index].file` at an index that holds no entry. -/
def removeImage (s : Editor) (index : ℕ) : Option Editor :=
  match s.images[index]? with
  | none => none
  | some item =>
    let removedFile := item.file.name
    let s1 := { s with images := s.images.eraseIdx index }
    match updateImageList s1 with
    | none => none
    | some s2 =>
      let s3 : Option Editor :=
        if s2.currentImageIndex = index then
          if s2.images.length > 0 then
            selectImage s2 (min (index : ℤ) ((s2.images.length : ℤ) - 1))
          else
            some { s2 with currentImageIndex := -1 }
        else if s2.currentImageIndex > index then
          some { s2 with currentImageIndex := s2.currentImageIndex - 1 }
        else
          some s2
      s3.map (fun s4 => showToast s4 (removedText removedFile) "success")

/-! ## Target dimension fields (lines 226-282) -/

/-- JavaScript `Math.round` on an exact rational: the nearest integer, a tie
going towards positive infinity. -/
def mathRound (x : ℚ) : ℤ :=
  ⌊x + 1 / 2⌋

/-- Method `handleTemplateSelect`, for a template whose `data-width`,
`data-height` and `title` attributes are the arguments. -/
def handleTemplateSelect (s : Editor) (width height : ℤ) (title : String) : Editor :=
  let s1 := { s with widthInput := width, heightInput := height,
                     aspectRatio := (width : ℚ) / (height : ℚ) }
  showToast s1 ("已应用模板: " ++ title) "success"

/-- Method `handleWidthChange(e)`; `e.target` is the width field at both call
sites, so `parseInt(e.target.value)` is `s.widthInput`. -/
def handleWidthChange (s : Editor) : Editor :=
  let width := s.widthInput
  if s.keepRatio then
    let height := mathRound ((width : ℚ) / s.aspectRatio)
    { s with heightInput := height }
  else
    s

/-- Method `handleHeightChange(e)`; `e.target` is the height field. -/
def handleHeightChange (s : Editor) : Editor :=
  let height := s.heightInput
  if s.keepRatio then
    let width := mathRound ((height : ℚ) * s.aspectRatio)
    { s with widthInput := width }
  else
    s

/-- An `input` event on the width field: the browser stores the typed value,
then the listener `handleWidthChange` runs. -/
def inputWidth (s : Editor) (w : ℤ) : Editor :=
  handleWidthChange { s with widthInput := w }

/-- An `input` event on the height field, followed by `handleHeightChange`. -/
def inputHeight (s : Editor) (h : ℤ) : Editor :=
  handleHeightChange { s with heightInput := h }

/-! ## Batch export (lines 353-433) -/

/-- State of one `exportBatch` call: the editor, the closure variable
`processedCount`, the indices for which a temporary image load was started, and
whether the completion branch of `processNextImage` has run. -/
structure BatchRun where
  editor : Editor
  processedCount : ℕ
  started : List ℕ
  finished : Bool
deriving DecidableEq

/-- Completion toast of `exportBatch`, line 372; the script passes
`this.images.length` for `n`. -/
def batchDoneText (n : ℕ) : String :=
  "批量导出完成！共导出 " ++ toString n ++ " 张图片"

/-- File name given to the download of the item at 0-based position `index`. -/
def batchFileName (index : ℕ) (item : ImageItem) : String :=
  "batch_" ++ toString (index + 1) ++ "_" ++ item.file.name

/-- Line logged by `tempImg.onerror`. -/
def loadFailedText (item : ImageItem) : String :=
  "Failed to load image: " ++ item.file.name

/-- Closure `processNextImage` with its `setTimeout` continuations unrolled;
the first argument bounds the number of calls.  `load index` is the outcome of
decoding `item.src` for the item at `index`: `some tempImg` fires `onload`,
`none` fires `onerror`.  `images` is taken not to change between the calls. -/
def processNextImage (load : ℕ → Option Image) (targetWidth targetHeight : JSNum)
    (targetAspectRatio : JSNum) : ℕ → BatchRun → BatchRun
  | 0, r => r
  | fuel + 1, r =>
    if r.processedCount ≥ r.editor.images.length then
      { r with
        editor := showToast (hideLoading r.editor)
          (batchDoneText r.editor.images.length) "success"
        finished := true }
    else
      match r.editor.images[r.processedCount]? with
      | none => r
      | some item =>
        let index := r.processedCount
        let r1 := { r with processedCount := r.processedCount + 1
                           started := r.started ++ [index] }
        match load index with
        | some tempImg =>
          let canvasWidth := canvasReadBack 300 targetWidth
          let canvasHeight := canvasReadBack 150 targetHeight
          let rect := onloadRect (JSNum.ofNat tempImg.width) (JSNum.ofNat tempImg.height)
            canvasWidth canvasHeight targetAspectRatio
          let link : Download :=
            { download := batchFileName index item
              canvasWidth := canvasWidth
              canvasHeight := canvasHeight
              rect := rect }
          processNextImage load targetWidth targetHeight targetAspectRatio fuel
            { r1 with editor := { r1.editor with
                downloads := r1.editor.downloads ++ [link] } }
        | none =>
          processNextImage load targetWidth targetHeight targetAspectRatio fuel
            { r1 with editor := { r1.editor with
                consoleErrors := r1.editor.consoleErrors ++ [loadFailedText item] } }

/-- Method `exportBatch()` from the values `parseInt` returned for the two
target fields (lines 362-363), which may be any integer, the negative zero,
`NaN` or an infinity.  One call of `processNextImage` per image plus the
completing call, hence `images.length + 1` calls. -/
def exportBatchParsed (s : Editor) (load : ℕ → Option Image)
    (targetWidth targetHeight : JSNum) : BatchRun :=
  if s.images.length = 0 then
    { editor := showToast s "请先上传图片" "error"
      processedCount := 0, started := [], finished := false }
  else
    let s1 := showLoading s
    let targetAspectRatio := JSNum.div targetWidth targetHeight
    processNextImage load targetWidth targetHeight targetAspectRatio
      (s.images.length + 1)
      { editor := s1, processedCount := 0, started := [], finished := false }

/-- Method `exportBatch()` on an editor whose target fields parse to integers. -/
def exportBatch (s : Editor) (load : ℕ → Option Image) : BatchRun :=
  exportBatchParsed s load (JSNum.ofInt s.widthInput) (JSNum.ofInt s.heightInput)

/-- Download the item at `index` is due: one when the list has an item there
and its decode succeeds. -/
def downloadAt (images : List ImageItem) (load : ℕ → Option Image)
    (tw th ar : JSNum) (index : ℕ) : Option Download :=
  match images[index]?, load index with
  | some item, some tempImg =>
    some { download := batchFileName index item
           canvasWidth := canvasReadBack 300 tw
           canvasHeight := canvasReadBack 150 th
           rect := onloadRect (JSNum.ofNat tempImg.width) (JSNum.ofNat tempImg.height)
             (canvasReadBack 300 tw) (canvasReadBack 150 th) ar }
  | _, _ => none

/-- File name the item at `index` is due: one when it decodes. -/
def dueName (images : List ImageItem) (load : ℕ → Option Image) (index : ℕ) :
    Option String :=
  match images[index]?, load index with
  | some item, some _ => some (batchFileName index item)
  | _, _ => none

/-- Error line the item at `index` is due: one when its decode fails. -/
def errorAt (images : List ImageItem) (load : ℕ → Option Image) (index : ℕ) :
    Option String :=
  match images[index]?, load index with
  | some item, none => some (loadFailedText item)
  | _, _ => none

/-- Number of positions below `n` whose decode fails. -/
def failCount (load : ℕ → Option Image) (n : ℕ) : ℕ :=
  ((List.range n).filter (fun i => (load i).isNone)).length

/-- Closed form of a completed run of `processNextImage` started from `r`. -/
def batchResult (load : ℕ → Option Image) (tw th ar : JSNum) (r : BatchRun) :
    BatchRun :=
  let n := r.editor.images.length
  let todo := List.range' r.processedCount (n - r.processedCount)
  { editor := { r.editor with
      downloads := r.editor.downloads ++ todo.filterMap (downloadAt r.editor.images load tw th ar)
      consoleErrors := r.editor.consoleErrors ++ todo.filterMap (errorAt r.editor.images load)
      toasts := r.editor.toasts ++ [{ text := batchDoneText n, type := "success" }]
      isProcessing := false }
    processedCount := n
    started := r.started ++ todo
    finished := true }

/-- Downloads triggered by one `exportBatch` call: what it appended to the trace. -/
def batchArtifacts (s : Editor) (load : ℕ → Option Image) : List Download :=
  (exportBatch s load).editor.downloads.drop s.downloads.length

/-- Error lines logged by one `exportBatch` call. -/
def batchErrors (s : Editor) (load : ℕ → Option Image) : List String :=
  (exportBatch s load).editor.consoleErrors.drop s.consoleErrors.length

/-- Toasts shown by one `exportBatch` call. -/
def batchToasts (s : Editor) (load : ℕ → Option Image) : List Toast :=
  (exportBatch s load).editor.toasts.drop s.toasts.length

/-- Downloads triggered by one `exportBatch` call whose target fields parsed to
the given numbers. -/
def parsedArtifacts (s : Editor) (load : ℕ → Option Image) (tw th : JSNum) :
    List Download :=
  (exportBatchParsed s load tw th).editor.downloads.drop s.downloads.length

/-- Toasts shown by one `exportBatch` call whose target fields parsed to the
given numbers. -/
def parsedToasts (s : Editor) (load : ℕ → Option Image) (tw th : JSNum) :
    List Toast :=
  (exportBatchParsed s load tw th).editor.toasts.drop s.toasts.length

/-! ## Sample states -/

/-- Entry for a PNG file of the given name and pixel size. -/
def sampleItem (name : String) (w h : ℕ) : ImageItem :=
  { file := { name := name, type := "image/png" }
    image := { width := w, height := h }
    src := "data:image/png;base64," ++ name }

/-- Editor holding the given images, the first selected, with the given target
dimension fields, ratio lock and locked ratio. -/
def sampleEditor (images : List ImageItem) (w h : ℤ) (keep : Bool) (ratio : ℚ) : Editor :=
  { images := images, currentImageIndex := 0, aspectRatio := ratio
    isProcessing := false, widthInput := w, heightInput := h, keepRatio := keep
    toasts := [], reads := [], downloads := [], consoleErrors := [] }

/-- Three uploaded images. -/
def threeImages : List ImageItem :=
  [sampleItem "a.png" 100 100, sampleItem "b.png" 10 10, sampleItem "c.png" 200 100]

/-- Fifty-one PNG files offered in one upload. -/
def fiftyOneFiles : List File :=
  List.replicate 51 { name := "photo.png", type := "image/png" }

/-- Upload of two PNG files and one text file. -/
def mixedFiles : List File :=
  [{ name := "a.png", type := "image/png" }, { name := "notes.txt", type := "text/plain" },
   { name := "b.png", type := "image/png" }]

/-- Decode outcomes in which only the second image (position 1) fails. -/
def secondFails (index : ℕ) : Option Image :=
  if index = 1 then none else (threeImages[index]?).map (fun item => item.image)

end ImageEditor

namespace ImageEditor

/-! ## Fit geometry over rationals -/

/-- In the first branch of the fit the scaled width exceeds the target width. -/
lemma wide_branch_width {sw sh tw th : ℚ} (hth : 0 < th)
    (h : sw / sh > tw / th) : tw < th * (sw / sh) := by
  have h1 : tw / th < sw / sh := h
  rw [div_lt_iff₀ hth] at h1
  linarith

/-- In the else branch of the fit the scaled height reaches the target height. -/
lemma tall_branch_height {sw sh tw th : ℚ} (hsw : 0 < sw) (hsh : 0 < sh)
    (hth : 0 < th) (h : ¬ sw / sh > tw / th) : th ≤ tw / (sw / sh) := by
  have h1 : sw / sh ≤ tw / th := not_lt.mp h
  have hr : 0 < sw / sh := div_pos hsw hsh
  rw [le_div_iff₀ hr]
  rw [le_div_iff₀ hth] at h1
  linarith

/-- Over rationals, for positive dimensions, the rectangle of the fit step
covers the canvas it was computed for. -/
lemma fitStep_covers (sw sh tw th : ℚ) (hsw : 0 < sw) (hsh : 0 < sh) (hth : 0 < th) :
    (fitStep sw sh tw th).drawX ≤ 0 ∧ (fitStep sw sh tw th).drawY ≤ 0 ∧
    tw ≤ (fitStep sw sh tw th).drawX + (fitStep sw sh tw th).drawWidth ∧
    th ≤ (fitStep sw sh tw th).drawY + (fitStep sw sh tw th).drawHeight ∧
    tw ≤ (fitStep sw sh tw th).drawWidth ∧
    th ≤ (fitStep sw sh tw th).drawHeight := by
  unfold fitStep onloadFit
  by_cases h : sw / sh > tw / th
  · have hw := wide_branch_width hth h
    simp only [h, if_true]
    refine ⟨?_, le_refl _, ?_, ?_, ?_, le_refl _⟩ <;> linarith
  · have hh := tall_branch_height hsw hsh hth h
    simp only [h, if_false]
    refine ⟨le_refl _, ?_, ?_, ?_, le_refl _, ?_⟩ <;> linarith

/-- Over rationals, equal ratios give the exact fit. -/
lemma fitStep_equal_ratio (sw sh tw th : ℚ) (hsw : 0 < sw) (hsh : 0 < sh)
    (htw : 0 < tw) (hth : 0 < th) (heq : sw * th = sh * tw) :
    ¬ (sw / sh > tw / th) ∧
    fitStep sw sh tw th = { drawX := 0, drawY := 0, drawWidth := tw, drawHeight := th } := by
  have hsw0 : sw ≠ 0 := ne_of_gt hsw
  have hsh0 : sh ≠ 0 := ne_of_gt hsh
  have hth0 : th ≠ 0 := ne_of_gt hth
  have htw0 : tw ≠ 0 := ne_of_gt htw
  have hr : sw / sh = tw / th := by
    rw [div_eq_div_iff hsh0 hth0]; linarith
  have hg : ¬ (sw / sh > tw / th) := by
    rw [hr]; exact lt_irrefl _
  have hh : tw / (sw / sh) = th := by
    rw [hr]; field_simp
  refine ⟨hg, ?_⟩
  unfold fitStep onloadFit
  simp only [hg, if_false, hh, sub_self, zero_div]

/-- Over rationals, the fit step is the reference algorithm of the
specification, and it splits the overflow evenly on both axes. -/
lemma fitStep_eq_spec (sw sh tw th : ℚ) :
    fitStep sw sh tw th = specFitRect sw sh tw th ∧
    -(fitStep sw sh tw th).drawX
      = (fitStep sw sh tw th).drawX + (fitStep sw sh tw th).drawWidth - tw ∧
    -(fitStep sw sh tw th).drawY
      = (fitStep sw sh tw th).drawY + (fitStep sw sh tw th).drawHeight - th := by
  unfold fitStep specFitRect onloadFit
  by_cases h : sw / sh > tw / th
  · simp only [h, if_true]
    refine ⟨trivial, ?_, ?_⟩ <;> ring
  · simp only [h, if_false]
    refine ⟨trivial, ?_, ?_⟩ <;> ring

/-- C2. For positive source and target dimensions the rectangle of the fit step
keeps the source aspect ratio, in both branches: drawWidth * sh = drawHeight * sw,
and as a quotient drawWidth / drawHeight = sw / sh. -/
theorem fit_preserves_aspect (sw sh tw th : ℚ) (hsw : 0 < sw) (hsh : 0 < sh)
    (htw : 0 < tw) (hth : 0 < th) :
    (fitStep sw sh tw th).drawWidth * sh = (fitStep sw sh tw th).drawHeight * sw ∧
    (fitStep sw sh tw th).drawWidth / (fitStep sw sh tw th).drawHeight = sw / sh := by
  have hsw0 : sw ≠ 0 := ne_of_gt hsw
  have hsh0 : sh ≠ 0 := ne_of_gt hsh
  have htw0 : tw ≠ 0 := ne_of_gt htw
  have hth0 : th ≠ 0 := ne_of_gt hth
  unfold fitStep onloadFit
  by_cases h : sw / sh > tw / th
  · simp only [h, if_true]
    constructor
    · field_simp
    · field_simp
      ring
  · simp only [h, if_false]
    constructor
    · field_simp
    · field_simp
      ring

/-- Witness of C2 at a 200x100 source and a 100x200 target. -/
theorem fit_preserves_aspect_witness :
    (fitStep 200 100 100 200).drawWidth * 100 = (fitStep 200 100 100 200).drawHeight * 200 ∧
    (fitStep 200 100 100 200).drawWidth / (fitStep 200 100 100 200).drawHeight
      = (200 : ℚ) / 100 :=
  fit_preserves_aspect 200 100 100 200 (by norm_num) (by norm_num) (by norm_num) (by norm_num)

/-! ## Arithmetic of JavaScript numbers on finite operands -/

/-- Division of a finite number by a positive finite number is the rational
quotient. -/
lemma js_div_fin_pos (a b : ℚ) (hb : 0 < b) :
    JSNum.div (JSNum.fin a) (JSNum.fin b) = JSNum.fin (a / b) := by
  have hb0 : b ≠ 0 := ne_of_gt hb
  have hbn : ¬ b < 0 := not_lt.mpr (le_of_lt hb)
  by_cases ha : a = 0
  · simp [JSNum.div, JSNum.isNaN, JSNum.isInf, JSNum.isZero, JSNum.signBit,
      JSNum.signedZero, hb0, hbn, ha]
  · simp [JSNum.div, JSNum.isNaN, JSNum.isInf, JSNum.isZero, JSNum.value, hb0, ha]

/-- Product of a positive finite number and a finite number is the rational
product. -/
lemma js_mul_pos_fin (a b : ℚ) (ha : 0 < a) :
    JSNum.mul (JSNum.fin a) (JSNum.fin b) = JSNum.fin (a * b) := by
  have ha0 : a ≠ 0 := ne_of_gt ha
  have han : ¬ a < 0 := not_lt.mpr (le_of_lt ha)
  by_cases hb : b = 0
  · simp [JSNum.mul, JSNum.isNaN, JSNum.isInf, JSNum.isZero, JSNum.signBit,
      JSNum.signedZero, ha0, han, hb]
  · simp [JSNum.mul, JSNum.isNaN, JSNum.isInf, JSNum.isZero, JSNum.value, ha0, hb]

/-- Product of two non-negative finite numbers is the rational product. -/
lemma js_mul_nonneg (a b : ℚ) (ha : 0 ≤ a) (hb : 0 ≤ b) :
    JSNum.mul (JSNum.fin a) (JSNum.fin b) = JSNum.fin (a * b) := by
  have han : ¬ a < 0 := not_lt.mpr ha
  have hbn : ¬ b < 0 := not_lt.mpr hb
  by_cases ha0 : a = 0
  · simp [JSNum.mul, JSNum.isNaN, JSNum.isInf, JSNum.isZero, JSNum.signBit,
      JSNum.signedZero, hbn, ha0]
  · by_cases hb0 : b = 0
    · simp [JSNum.mul, JSNum.isNaN, JSNum.isInf, JSNum.isZero, JSNum.signBit,
        JSNum.signedZero, han, hb0]
    · simp [JSNum.mul, JSNum.isNaN, JSNum.isInf, JSNum.isZero, JSNum.value, ha0, hb0]

/-- Difference of two finite numbers is the rational difference. -/
lemma js_sub_fin (a b : ℚ) :
    JSNum.sub (JSNum.fin a) (JSNum.fin b) = JSNum.fin (a - b) := by
  by_cases h : a - b = 0
  · simp [JSNum.sub, JSNum.isNaN, JSNum.isInf, JSNum.value, h]
  · simp [JSNum.sub, JSNum.isNaN, JSNum.isInf, JSNum.value, h]

/-- Comparison of two finite numbers is the rational comparison. -/
lemma js_gt_fin (a b : ℚ) :
    JSNum.gt (JSNum.fin a) (JSNum.fin b) = decide (a > b) := by
  simp [JSNum.gt, JSNum.isNaN, JSNum.value]

/-- A canvas reads back an integer from 0 to 2^31 - 1 unchanged. -/
lemma canvasReadBack_ofInt (fallback : ℕ) (z : ℤ) (h0 : 0 ≤ z) (h1 : z ≤ 2147483647) :
    canvasReadBack fallback (JSNum.ofInt z) = z.toNat := by
  have hq : (0 : ℚ) ≤ (z : ℚ) := by exact_mod_cast h0
  have hmod : z % 4294967296 = z := Int.emod_eq_of_lt h0 (by omega)
  have hle : z.toNat ≤ 2147483647 := by omega
  simp [canvasReadBack, JSNum.ofInt, JSNum.toUnsignedLong, JSNum.truncate, hq, hmod, hle]

/-- For a positive finite image size and integer target fields from 1 to
2^31 - 1, the fit step of the batch is the fit step over rationals. -/
lemma batchFit_eq_fitStep (sw sh : ℚ) (tw th : ℤ) (hsw : 0 < sw) (hsh : 0 < sh)
    (htw : 1 ≤ tw) (htwmax : tw ≤ 2147483647) (hth : 1 ≤ th) (hthmax : th ≤ 2147483647) :
    batchFit (JSNum.fin sw) (JSNum.fin sh) (JSNum.ofInt tw) (JSNum.ofInt th)
      = JSRect.ofRat (fitStep sw sh tw th) ∧
    isWider (JSNum.div (JSNum.fin sw) (JSNum.fin sh))
        (JSNum.div (JSNum.ofInt tw) (JSNum.ofInt th))
      = decide (sw / sh > (tw : ℚ) / (th : ℚ)) := by
  have hthq : (0 : ℚ) < (th : ℚ) := by exact_mod_cast (by omega : (0 : ℤ) < th)
  have htwq : (0 : ℚ) < (tw : ℚ) := by exact_mod_cast (by omega : (0 : ℤ) < tw)
  have hr : (0 : ℚ) < sw / sh := div_pos hsw hsh
  have hcw : ((tw.toNat : ℕ) : ℚ) = (tw : ℚ) := by
    have : ((tw.toNat : ℕ) : ℤ) = tw := Int.toNat_of_nonneg (by omega)
    exact_mod_cast this
  have hch : ((th.toNat : ℕ) : ℚ) = (th : ℚ) := by
    have : ((th.toNat : ℕ) : ℤ) = th := Int.toNat_of_nonneg (by omega)
    exact_mod_cast this
  have hguard : isWider (JSNum.div (JSNum.fin sw) (JSNum.fin sh))
      (JSNum.div (JSNum.ofInt tw) (JSNum.ofInt th))
      = decide (sw / sh > (tw : ℚ) / (th : ℚ)) := by
    unfold isWider JSNum.ofInt
    rw [js_div_fin_pos sw sh hsh, js_div_fin_pos _ _ hthq, js_gt_fin]
  refine ⟨?_, hguard⟩
  unfold batchFit onloadRect
  simp only [hguard]
  rw [canvasReadBack_ofInt 300 tw (by omega) htwmax,
    canvasReadBack_ofInt 150 th (by omega) hthmax, js_div_fin_pos sw sh hsh]
  unfold fitStep onloadFit JSRect.ofRat
  by_cases h : sw / sh > (tw : ℚ) / (th : ℚ)
  · simp only [h, decide_True, if_true, scaleByHeight, JSNum.ofNat, hcw, hch]
    rw [js_mul_pos_fin _ _ hthq, js_sub_fin, js_div_fin_pos _ _ (by norm_num)]
    simp
  · simp only [h, decide_False, if_false, scaleByWidth, JSNum.ofNat, hcw, hch]
    rw [js_div_fin_pos _ _ hr, js_sub_fin, js_div_fin_pos _ _ (by norm_num)]
    simp

/-- For a positive finite image size and a finite target ratio, the fit of the
script on a canvas of any stored size is the fit over rationals. -/
lemma onloadRect_fin (sw sh : ℚ) (cw ch : ℕ) (tar : ℚ) (hsw : 0 < sw) (hsh : 0 < sh) :
    onloadRect (JSNum.fin sw) (JSNum.fin sh) cw ch (JSNum.fin tar)
      = JSRect.ofRat (onloadFit sw sh cw ch tar) := by
  have hr : (0 : ℚ) < sw / sh := div_pos hsw hsh
  have hch : (0 : ℚ) ≤ (ch : ℚ) := Nat.cast_nonneg ch
  simp only [onloadRect, isWider, js_div_fin_pos sw sh hsh, js_gt_fin]
  unfold onloadFit JSRect.ofRat
  by_cases h : sw / sh > tar
  · simp only [h, decide_True, if_true, scaleByHeight, JSNum.ofNat]
    rw [js_mul_nonneg _ _ hch (le_of_lt hr), js_sub_fin, js_div_fin_pos _ _ (by norm_num)]
    simp
  · simp only [h, decide_False, if_false, scaleByWidth, JSNum.ofNat]
    rw [js_div_fin_pos _ _ hr, js_sub_fin, js_div_fin_pos _ _ (by norm_num)]
    simp

/-- A canvas assigned an integer from 2^31 to 2^32 - 1 reads the fallback. -/
lemma canvasReadBack_ofInt_large (fallback : ℕ) (z : ℤ) (h0 : 2147483648 ≤ z)
    (h1 : z < 4294967296) : canvasReadBack fallback (JSNum.ofInt z) = fallback := by
  have hq : (0 : ℚ) ≤ (z : ℚ) := by exact_mod_cast (by omega : (0 : ℤ) ≤ z)
  have hmod : z % 4294967296 = z := Int.emod_eq_of_lt (by omega) h1
  have hle : ¬ z.toNat ≤ 2147483647 := by omega
  simp [canvasReadBack, JSNum.ofInt, JSNum.toUnsignedLong, JSNum.truncate, hq, hmod, hle]

/-! ## Fit step of the batch -/

/-- C1 as stated fails: a 400x100 image and the target 3000000000 x 100 are all
positive, but the canvas reads back 300 x 100, so the rectangle is
(0, 25/2, 300, 75): it starts below the top edge and is lower than the target. -/
theorem batchFit_gap_counterexample :
    batchFit (JSNum.fin 400) (JSNum.fin 100) (JSNum.ofInt 3000000000) (JSNum.ofInt 100)
      = { drawX := JSNum.fin 0, drawY := JSNum.fin (25 / 2)
          drawWidth := JSNum.fin 300, drawHeight := JSNum.fin 75 } ∧
    ¬ ((25 / 2 : ℚ) ≤ 0) ∧ ¬ ((100 : ℚ) ≤ 75) := by
  have hcw : canvasReadBack 300 (JSNum.ofInt 3000000000) = 300 :=
    canvasReadBack_ofInt_large 300 3000000000 (by norm_num) (by norm_num)
  have hch : canvasReadBack 150 (JSNum.ofInt 100) = 100 :=
    canvasReadBack_ofInt 150 100 (by norm_num) (by norm_num)
  refine ⟨?_, by norm_num, by norm_num⟩
  simp only [batchFit]
  rw [hcw, hch]
  simp only [JSNum.ofInt]
  rw [js_div_fin_pos _ _ (by norm_num), onloadRect_fin _ _ _ _ _ (by norm_num) (by norm_num)]
  norm_num [onloadFit, JSRect.ofRat]

/-- C1, amended. In exact rational arithmetic, for a positive image size and
integer target dimensions from 1 to 2^31 - 1 (which the canvas stores
unchanged), the four numbers of the draw rectangle are finite and the rectangle
covers the whole target canvas: its origin is at or before the canvas origin on
both axes, its far edges are at or beyond the canvas edges, and so its width
and height are at least the target's. -/
theorem batchFit_covers_canvas (sw sh : ℚ) (tw th : ℤ) (hsw : 0 < sw) (hsh : 0 < sh)
    (htw : 1 ≤ tw) (htwmax : tw ≤ 2147483647) (hth : 1 ≤ th) (hthmax : th ≤ 2147483647) :
    ∃ x y w h : ℚ,
      batchFit (JSNum.fin sw) (JSNum.fin sh) (JSNum.ofInt tw) (JSNum.ofInt th)
        = { drawX := JSNum.fin x, drawY := JSNum.fin y
            drawWidth := JSNum.fin w, drawHeight := JSNum.fin h } ∧
      x ≤ 0 ∧ y ≤ 0 ∧ (tw : ℚ) ≤ x + w ∧ (th : ℚ) ≤ y + h ∧ (tw : ℚ) ≤ w ∧ (th : ℚ) ≤ h := by
  have hthq : (0 : ℚ) < (th : ℚ) := by exact_mod_cast (by omega : (0 : ℤ) < th)
  exact ⟨_, _, _, _, (batchFit_eq_fitStep sw sh tw th hsw hsh htw htwmax hth hthmax).1,
    fitStep_covers sw sh tw th hsw hsh hthq⟩

/-- Witness of the amended C1 at a 100x100 image and a 200x100 target. -/
theorem batchFit_covers_canvas_witness :
    ∃ x y w h : ℚ,
      batchFit (JSNum.fin 100) (JSNum.fin 100) (JSNum.ofInt 200) (JSNum.ofInt 100)
        = { drawX := JSNum.fin x, drawY := JSNum.fin y
            drawWidth := JSNum.fin w, drawHeight := JSNum.fin h } ∧
      x ≤ 0 ∧ y ≤ 0 ∧ ((200 : ℤ) : ℚ) ≤ x + w ∧ ((100 : ℤ) : ℚ) ≤ y + h ∧
      ((200 : ℤ) : ℚ) ≤ w ∧ ((100 : ℤ) : ℚ) ≤ h :=
  batchFit_covers_canvas 100 100 200 100 (by norm_num) (by norm_num) (by norm_num)
    (by norm_num) (by norm_num) (by norm_num)

/-- C4 as stated fails: a 100x100 image and the target 3000000000 x 3000000000
have equal ratios, but the canvas reads back 300 x 150, so the rectangle is
(0, -75, 300, 300) and not the exact fit (0, 0, 3000000000, 3000000000). -/
theorem batchFit_equal_ratio_counterexample :
    (100 : ℚ) * ((3000000000 : ℤ) : ℚ) = 100 * ((3000000000 : ℤ) : ℚ) ∧
    batchFit (JSNum.fin 100) (JSNum.fin 100) (JSNum.ofInt 3000000000)
        (JSNum.ofInt 3000000000)
      = { drawX := JSNum.fin 0, drawY := JSNum.fin (-75)
          drawWidth := JSNum.fin 300, drawHeight := JSNum.fin 300 } ∧
    batchFit (JSNum.fin 100) (JSNum.fin 100) (JSNum.ofInt 3000000000)
        (JSNum.ofInt 3000000000)
      ≠ { drawX := JSNum.fin 0, drawY := JSNum.fin 0
          drawWidth := JSNum.fin 3000000000, drawHeight := JSNum.fin 3000000000 } := by
  have hcw : canvasReadBack 300 (JSNum.ofInt 3000000000) = 300 :=
    canvasReadBack_ofInt_large 300 3000000000 (by norm_num) (by norm_num)
  have hch : canvasReadBack 150 (JSNum.ofInt 3000000000) = 150 :=
    canvasReadBack_ofInt_large 150 3000000000 (by norm_num) (by norm_num)
  have hval : batchFit (JSNum.fin 100) (JSNum.fin 100) (JSNum.ofInt 3000000000)
      (JSNum.ofInt 3000000000)
      = { drawX := JSNum.fin 0, drawY := JSNum.fin (-75)
          drawWidth := JSNum.fin 300, drawHeight := JSNum.fin 300 } := by
    simp only [batchFit]
    rw [hcw, hch]
    simp only [JSNum.ofInt]
    rw [js_div_fin_pos _ _ (by norm_num), onloadRect_fin _ _ _ _ _ (by norm_num) (by norm_num)]
    norm_num [onloadFit, JSRect.ofRat]
  refine ⟨rfl, hval, ?_⟩
  rw [hval]
  intro h
  have h2 := congrArg JSRect.drawY h
  simp at h2

/-- C4, amended. In exact rational arithmetic, for a positive image size and
integer target dimensions from 1 to 2^31 - 1 with equal ratios
(sw * th = sh * tw), the guard of line 395 is false, so the fit is the else
branch, and the rectangle is the exact fit (0, 0, tw, th). -/
theorem batchFit_equal_ratio_exact (sw sh : ℚ) (tw th : ℤ) (hsw : 0 < sw) (hsh : 0 < sh)
    (htw : 1 ≤ tw) (htwmax : tw ≤ 2147483647) (hth : 1 ≤ th) (hthmax : th ≤ 2147483647)
    (heq : sw * (th : ℚ) = sh * (tw : ℚ)) :
    isWider (JSNum.div (JSNum.fin sw) (JSNum.fin sh))
        (JSNum.div (JSNum.ofInt tw) (JSNum.ofInt th)) = false ∧
    batchFit (JSNum.fin sw) (JSNum.fin sh) (JSNum.ofInt tw) (JSNum.ofInt th)
      = scaleByWidth (canvasReadBack 300 (JSNum.ofInt tw))
          (canvasReadBack 150 (JSNum.ofInt th)) (JSNum.div (JSNum.fin sw) (JSNum.fin sh)) ∧
    batchFit (JSNum.fin sw) (JSNum.fin sh) (JSNum.ofInt tw) (JSNum.ofInt th)
      = { drawX := JSNum.fin 0, drawY := JSNum.fin 0
          drawWidth := JSNum.fin (tw : ℚ), drawHeight := JSNum.fin (th : ℚ) } := by
  have hthq : (0 : ℚ) < (th : ℚ) := by exact_mod_cast (by omega : (0 : ℤ) < th)
  have htwq : (0 : ℚ) < (tw : ℚ) := by exact_mod_cast (by omega : (0 : ℤ) < tw)
  obtain ⟨hfit, hguard⟩ := batchFit_eq_fitStep sw sh tw th hsw hsh htw htwmax hth hthmax
  obtain ⟨hng, hrect⟩ := fitStep_equal_ratio sw sh tw th hsw hsh htwq hthq heq
  have hfalse : isWider (JSNum.div (JSNum.fin sw) (JSNum.fin sh))
      (JSNum.div (JSNum.ofInt tw) (JSNum.ofInt th)) = false := by
    rw [hguard]; exact decide_eq_false hng
  refine ⟨hfalse, ?_, ?_⟩
  · simp only [batchFit, onloadRect, hfalse]
    rfl
  · rw [hfit, hrect]
    rfl

/-- Witness of the amended C4: a 100x50 image in a 200x100 target is drawn at
(0, 0, 200, 100). -/
theorem batchFit_equal_ratio_exact_witness :
    isWider (JSNum.div (JSNum.fin 100) (JSNum.fin 50))
        (JSNum.div (JSNum.ofInt 200) (JSNum.ofInt 100)) = false ∧
    batchFit (JSNum.fin 100) (JSNum.fin 50) (JSNum.ofInt 200) (JSNum.ofInt 100)
      = scaleByWidth (canvasReadBack 300 (JSNum.ofInt 200))
          (canvasReadBack 150 (JSNum.ofInt 100)) (JSNum.div (JSNum.fin 100) (JSNum.fin 50)) ∧
    batchFit (JSNum.fin 100) (JSNum.fin 50) (JSNum.ofInt 200) (JSNum.ofInt 100)
      = { drawX := JSNum.fin 0, drawY := JSNum.fin 0
          drawWidth := JSNum.fin ((200 : ℤ) : ℚ), drawHeight := JSNum.fin ((100 : ℤ) : ℚ) } :=
  batchFit_equal_ratio_exact 100 50 200 100 (by norm_num) (by norm_num) (by norm_num)
    (by norm_num) (by norm_num) (by norm_num) (by norm_num)

/-- C5 as stated fails: for a 100x100 image and the target 3000000000 x 100 the
canvas reads back 300 x 100 and the script draws (0, -100, 300, 300), while the
reference algorithm gives drawWidth = 3000000000. -/
theorem batchFit_spec_counterexample :
    batchFit (JSNum.fin 100) (JSNum.fin 100) (JSNum.ofInt 3000000000) (JSNum.ofInt 100)
      = { drawX := JSNum.fin 0, drawY := JSNum.fin (-100)
          drawWidth := JSNum.fin 300, drawHeight := JSNum.fin 300 } ∧
    specFitRect 100 100 3000000000 100
      = { drawX := 0, drawY := -1499999950
          drawWidth := 3000000000, drawHeight := 3000000000 } := by
  have hcw : canvasReadBack 300 (JSNum.ofInt 3000000000) = 300 :=
    canvasReadBack_ofInt_large 300 3000000000 (by norm_num) (by norm_num)
  have hch : canvasReadBack 150 (JSNum.ofInt 100) = 100 :=
    canvasReadBack_ofInt 150 100 (by norm_num) (by norm_num)
  constructor
  · simp only [batchFit]
    rw [hcw, hch]
    simp only [JSNum.ofInt]
    rw [js_div_fin_pos _ _ (by norm_num), onloadRect_fin _ _ _ _ _ (by norm_num) (by norm_num)]
    norm_num [onloadFit, JSRect.ofRat]
  · norm_num [specFitRect]

/-- C5, amended. For a positive image size and integer target dimensions from 1
to 2^31 - 1, the draw rectangle of the batch is the one the reference algorithm
of the specification returns, and the overflow is split evenly on both axes:
what sticks out before the canvas origin equals what sticks out past the far
edge. -/
theorem batchFit_refines_spec (sw sh : ℚ) (tw th : ℤ) (hsw : 0 < sw) (hsh : 0 < sh)
    (htw : 1 ≤ tw) (htwmax : tw ≤ 2147483647) (hth : 1 ≤ th) (hthmax : th ≤ 2147483647) :
    ∃ x y w h : ℚ,
      batchFit (JSNum.fin sw) (JSNum.fin sh) (JSNum.ofInt tw) (JSNum.ofInt th)
        = { drawX := JSNum.fin x, drawY := JSNum.fin y
            drawWidth := JSNum.fin w, drawHeight := JSNum.fin h } ∧
      ({ drawX := x, drawY := y, drawWidth := w, drawHeight := h } : DrawRect)
        = specFitRect sw sh tw th ∧
      -x = x + w - (tw : ℚ) ∧ -y = y + h - (th : ℚ) := by
  obtain ⟨hspec, hx, hy⟩ := fitStep_eq_spec sw sh tw th
  exact ⟨_, _, _, _, (batchFit_eq_fitStep sw sh tw th hsw hsh htw htwmax hth hthmax).1,
    hspec, hx, hy⟩

/-- Witness of the amended C5, with the two boundary cases of the specification
evaluated: (100,100,200,100) gives (0, -50, 200, 200) and (200,100,100,200)
gives (-150, 0, 400, 200). -/
theorem batchFit_refines_spec_witness :
    (∃ x y w h : ℚ,
      batchFit (JSNum.fin 100) (JSNum.fin 100) (JSNum.ofInt 200) (JSNum.ofInt 100)
        = { drawX := JSNum.fin x, drawY := JSNum.fin y
            drawWidth := JSNum.fin w, drawHeight := JSNum.fin h } ∧
      ({ drawX := x, drawY := y, drawWidth := w, drawHeight := h } : DrawRect)
        = specFitRect 100 100 ((200 : ℤ) : ℚ) ((100 : ℤ) : ℚ) ∧
      -x = x + w - ((200 : ℤ) : ℚ) ∧ -y = y + h - ((100 : ℤ) : ℚ)) ∧
    batchFit (JSNum.fin 100) (JSNum.fin 100) (JSNum.ofInt 200) (JSNum.ofInt 100)
      = { drawX := JSNum.fin 0, drawY := JSNum.fin (-50)
          drawWidth := JSNum.fin 200, drawHeight := JSNum.fin 200 } ∧
    batchFit (JSNum.fin 200) (JSNum.fin 100) (JSNum.ofInt 100) (JSNum.ofInt 200)
      = { drawX := JSNum.fin (-150), drawY := JSNum.fin 0
          drawWidth := JSNum.fin 400, drawHeight := JSNum.fin 200 } := by
  refine ⟨batchFit_refines_spec 100 100 200 100 (by norm_num) (by norm_num) (by norm_num)
    (by norm_num) (by norm_num) (by norm_num), ?_, ?_⟩
  · rw [(batchFit_eq_fitStep 100 100 200 100 (by norm_num) (by norm_num) (by norm_num)
      (by norm_num) (by norm_num) (by norm_num)).1]
    norm_num [fitStep, onloadFit, JSRect.ofRat]
  · rw [(batchFit_eq_fitStep 200 100 100 200 (by norm_num) (by norm_num) (by norm_num)
      (by norm_num) (by norm_num) (by norm_num)).1]
    norm_num [fitStep, onloadFit, JSRect.ofRat]

/-! ## Batch export -/

/-- With enough calls left, `processNextImage` runs to its completion branch and
ends in the closed form `batchResult`. -/
lemma processNextImage_run (load : ℕ → Option Image) (tw th ar : JSNum) :
    ∀ (fuel : ℕ) (r : BatchRun), r.processedCount ≤ r.editor.images.length →
      r.editor.images.length - r.processedCount < fuel →
      processNextImage load tw th ar fuel r = batchResult load tw th ar r := by
  intro fuel
  induction fuel with
  | zero => intro r _ h; omega
  | succ fuel ih =>
    intro r hle hlt
    rw [processNextImage]
    by_cases hge : r.processedCount ≥ r.editor.images.length
    · have hpc : r.editor.images.length - r.processedCount = 0 := by omega
      have hpc2 : r.processedCount = r.editor.images.length := le_antisymm hle hge
      simp [hge, batchResult, hpc, showToast, hideLoading]
      exact hpc2
    · have hlt2 : r.processedCount < r.editor.images.length := by omega
      have hitem : r.editor.images[r.processedCount]?
          = some (r.editor.images[r.processedCount]) := List.getElem?_eq_getElem hlt2
      have hsplit : r.editor.images.length - r.processedCount
          = (r.editor.images.length - (r.processedCount + 1)) + 1 := by omega
      simp only [hge, if_false, hitem]
      cases hload : load r.processedCount with
      | none =>
        simp only
        rw [ih _ (by simp; omega) (by simp; omega)]
        simp only [batchResult]
        rw [hsplit, List.range'_succ]
        simp [downloadAt, errorAt, hitem, hload]
      | some img =>
        simp only
        rw [ih _ (by simp; omega) (by simp; omega)]
        simp only [batchResult]
        rw [hsplit, List.range'_succ]
        simp [downloadAt, errorAt, hitem, hload]

/-- A batch over a non-empty list runs to completion, in closed form, whatever
the target fields parsed to. -/
lemma exportBatchParsed_run (s : Editor) (load : ℕ → Option Image) (tw th : JSNum)
    (h : s.images ≠ []) :
    exportBatchParsed s load tw th
      = batchResult load tw th (JSNum.div tw th)
          { editor := showLoading s, processedCount := 0, started := [], finished := false } := by
  have hlen : s.images.length ≠ 0 := by
    intro h0; exact h (List.length_eq_zero.mp h0)
  unfold exportBatchParsed
  simp only [hlen, if_false]
  apply processNextImage_run
  · simp
  · simp [showLoading]

/-- Downloads of one batch, in closed form (empty list included). -/
lemma parsedArtifacts_eq (s : Editor) (load : ℕ → Option Image) (tw th : JSNum) :
    parsedArtifacts s load tw th
      = (List.range s.images.length).filterMap
          (downloadAt s.images load tw th (JSNum.div tw th)) := by
  by_cases h : s.images = []
  · simp [parsedArtifacts, exportBatchParsed, h, showToast]
  · simp [parsedArtifacts, exportBatchParsed_run s load tw th h, batchResult, showLoading,
      List.range_eq_range']

/-- Downloads of one batch on integer target fields, in closed form. -/
lemma batchArtifacts_eq (s : Editor) (load : ℕ → Option Image) :
    batchArtifacts s load
      = (List.range s.images.length).filterMap
          (downloadAt s.images load (JSNum.ofInt s.widthInput) (JSNum.ofInt s.heightInput)
            (JSNum.div (JSNum.ofInt s.widthInput) (JSNum.ofInt s.heightInput))) :=
  parsedArtifacts_eq s load (JSNum.ofInt s.widthInput) (JSNum.ofInt s.heightInput)

/-- Error lines of one batch, in closed form. -/
lemma batchErrors_eq (s : Editor) (load : ℕ → Option Image) :
    batchErrors s load
      = (List.range s.images.length).filterMap (errorAt s.images load) := by
  by_cases h : s.images = []
  · simp [batchErrors, exportBatch, exportBatchParsed, h, showToast]
  · simp [batchErrors, exportBatch, exportBatchParsed_run s load _ _ h, batchResult,
      showLoading, List.range_eq_range']

/-- The file name of the download due at a position is the name due there. -/
lemma downloadAt_name (images : List ImageItem) (load : ℕ → Option Image)
    (tw th ar : JSNum) (i : ℕ) :
    (downloadAt images load tw th ar i).map (fun d => d.download)
      = dueName images load i := by
  unfold downloadAt dueName
  cases images[i]? <;> cases load i <;> rfl

/-- The rectangle of the download due at a position is the fit step of the
batch applied to the decoded size and the parsed target fields. -/
lemma downloadAt_rect (images : List ImageItem) (load : ℕ → Option Image)
    (tw th : JSNum) (i : ℕ) (d : Download)
    (h : downloadAt images load tw th (JSNum.div tw th) i = some d) :
    ∃ img, load i = some img ∧
      d.rect = batchFit (JSNum.ofNat img.width) (JSNum.ofNat img.height) tw th := by
  unfold downloadAt at h
  cases hitem : images[i]? with
  | none => simp [hitem] at h
  | some item =>
    cases hload : load i with
    | none => simp [hitem, hload] at h
    | some img =>
      simp only [hitem, hload, Option.some.injEq] at h
      exact ⟨img, rfl, by rw [← h]; rfl⟩

/-- Over positions inside the list, downloads and failed decodes partition the
positions, and there is one error line per failed decode. -/
lemma batch_counts (images : List ImageItem) (load : ℕ → Option Image)
    (tw th ar : JSNum) :
    ∀ l : List ℕ, (∀ i ∈ l, i < images.length) →
      (l.filterMap (downloadAt images load tw th ar)).length
          + (l.filter (fun i => (load i).isNone)).length = l.length ∧
      (l.filterMap (errorAt images load)).length
          = (l.filter (fun i => (load i).isNone)).length := by
  intro l
  induction l with
  | nil => intro _; simp
  | cons a t ih =>
    intro hall
    have ha : a < images.length := hall a (List.mem_cons_self a t)
    have ht := ih (fun i hi => hall i (List.mem_cons_of_mem a hi))
    have hitem : images[a]? = some (images[a]) := List.getElem?_eq_getElem ha
    cases hload : load a with
    | none =>
      simp [List.filterMap_cons, List.filter_cons, downloadAt, errorAt, hitem, hload]
      omega
    | some img =>
      simp [List.filterMap_cons, List.filter_cons, downloadAt, errorAt, hitem, hload]
      omega

/-- For every non-empty list of n images of which k fail to decode, the batch
reaches its completion branch after starting one load per index, in order; it
has then triggered n - k downloads and logged k failed decodes, while its one
toast carries the list length n. -/
lemma exportBatch_totals (s : Editor) (load : ℕ → Option Image) (h : s.images ≠ []) :
    (exportBatch s load).finished = true ∧
    (exportBatch s load).started = List.range s.images.length ∧
    (exportBatch s load).processedCount = s.images.length ∧
    (batchArtifacts s load).length
      = s.images.length - failCount load s.images.length ∧
    (batchErrors s load).length = failCount load s.images.length ∧
    batchToasts s load = [{ text := batchDoneText s.images.length, type := "success" }] ∧
    (exportBatch s load).editor.isProcessing = false := by
  have hc := batch_counts s.images load (JSNum.ofInt s.widthInput)
    (JSNum.ofInt s.heightInput)
    (JSNum.div (JSNum.ofInt s.widthInput) (JSNum.ofInt s.heightInput))
    (List.range s.images.length) (fun i hi => List.mem_range.mp hi)
  rw [List.length_range] at hc
  have hrun := exportBatchParsed_run s load (JSNum.ofInt s.widthInput)
    (JSNum.ofInt s.heightInput) h
  refine ⟨?_, ?_, ?_, ?_, ?_, ?_, ?_⟩
  · simp [exportBatch, hrun, batchResult]
  · simp [exportBatch, hrun, batchResult, List.range_eq_range', showLoading]
  · simp [exportBatch, hrun, batchResult, showLoading]
  · rw [batchArtifacts_eq]
    unfold failCount
    omega
  · rw [batchErrors_eq]
    unfold failCount
    exact hc.2
  · simp [batchToasts, exportBatch, hrun, batchResult, showLoading]
  · simp [exportBatch, hrun, batchResult]

/-- C3. For every image list and every pattern of decode outcomes, the downloads
of one `exportBatch` call are appended after the earlier ones and their file
names are, in list order, "batch_" ++ (i+1) ++ "_" ++ name for exactly the
positions i whose image decodes: the number is the original position, also
after a skip.  Three images with the second failing give the two names
numbered 1 and 3. -/
theorem exportBatch_artifact_names (s : Editor) (load : ℕ → Option Image) :
    (exportBatch s load).editor.downloads = s.downloads ++ batchArtifacts s load ∧
    (batchArtifacts s load).map (fun d => d.download)
      = (List.range s.images.length).filterMap (dueName s.images load) ∧
    (batchArtifacts (sampleEditor threeImages 200 100 true 2) secondFails).map
        (fun d => d.download) = ["batch_1_a.png", "batch_3_c.png"] := by
  refine ⟨?_, ?_, by decide⟩
  · by_cases h : s.images = []
    · simp [batchArtifacts, exportBatch, exportBatchParsed, h, showToast]
    · simp [batchArtifacts, exportBatch, exportBatchParsed_run s load _ _ h, batchResult,
        showLoading]
  · rw [batchArtifacts_eq, List.map_filterMap]
    congr 1
    funext i
    exact downloadAt_name _ _ _ _ _ i

/-- C7: the script at the failing input.  With three images of which the second
fails to decode, one decode fails, one error line is logged and two downloads
are triggered, yet the completion toast reads "共导出 3 张图片" (3 exported): it
prints the list length where the number of downloads is 2. -/
theorem exportBatch_reports_list_length :
    failCount secondFails 3 = 1 ∧
    (batchArtifacts (sampleEditor threeImages 200 100 true 2) secondFails).length = 2 ∧
    batchErrors (sampleEditor threeImages 200 100 true 2) secondFails
      = ["Failed to load image: b.png"] ∧
    batchToasts (sampleEditor threeImages 200 100 true 2) secondFails
      = [{ text := "批量导出完成！共导出 3 张图片", type := "success" }] ∧
    batchDoneText 3 ≠ batchDoneText 2 := by
  refine ⟨by decide, by decide, by decide, by decide, by decide⟩

/-- Toasts of one batch over a non-empty list: the completion toast alone,
whatever the target fields parsed to. -/
lemma parsedToasts_eq (s : Editor) (load : ℕ → Option Image) (tw th : JSNum)
    (h : s.images ≠ []) :
    parsedToasts s load tw th
      = [{ text := batchDoneText s.images.length, type := "success" }] := by
  simp [parsedToasts, exportBatchParsed_run s load tw th h, batchResult, showLoading]

/-- C6 as stated fails.  With one 100x100 image that decodes: when the target
fields parse to 0 and 100, `exportBatch` shows its success toast alone, computes
the rectangle (-50, 0, 100, 100) and triggers the download "batch_1_a.png" of a
canvas sized 0 x 100; when the width field parses to `NaN` it computes
(0, 50, 0, 0) and triggers the same download. -/
theorem exportBatch_zero_width_counterexample :
    (sampleEditor [sampleItem "a.png" 100 100] 0 100 false 1).widthInput ≤ 0 ∧
    batchArtifacts (sampleEditor [sampleItem "a.png" 100 100] 0 100 false 1)
        (fun _ => some { width := 100, height := 100 })
      = [{ download := "batch_1_a.png", canvasWidth := 0, canvasHeight := 100
           rect := { drawX := JSNum.fin (-50), drawY := JSNum.fin 0
                     drawWidth := JSNum.fin 100, drawHeight := JSNum.fin 100 } }] ∧
    batchToasts (sampleEditor [sampleItem "a.png" 100 100] 0 100 false 1)
        (fun _ => some { width := 100, height := 100 })
      = [{ text := "批量导出完成！共导出 1 张图片", type := "success" }] ∧
    parsedArtifacts (sampleEditor [sampleItem "a.png" 100 100] 0 100 false 1)
        (fun _ => some { width := 100, height := 100 }) JSNum.nan (JSNum.ofInt 100)
      = [{ download := "batch_1_a.png", canvasWidth := 0, canvasHeight := 100
           rect := { drawX := JSNum.fin 0, drawY := JSNum.fin 50
                     drawWidth := JSNum.fin 0, drawHeight := JSNum.fin 0 } }] ∧
    parsedToasts (sampleEditor [sampleItem "a.png" 100 100] 0 100 false 1)
        (fun _ => some { width := 100, height := 100 }) JSNum.nan (JSNum.ofInt 100)
      = [{ text := "批量导出完成！共导出 1 张图片", type := "success" }] := by
  have hname : batchFileName 0 (sampleItem "a.png" 100 100) = "batch_1_a.png" := by decide
  have hc0 : canvasReadBack 300 (JSNum.ofInt 0) = 0 :=
    canvasReadBack_ofInt 300 0 (by norm_num) (by norm_num)
  have hch : canvasReadBack 150 (JSNum.ofInt 100) = 100 :=
    canvasReadBack_ofInt 150 100 (by norm_num) (by norm_num)
  have hcn : canvasReadBack 300 JSNum.nan = 0 := by
    simp [canvasReadBack, JSNum.toUnsignedLong]
  have hdiv : JSNum.div (JSNum.ofInt 0) (JSNum.ofInt 100) = JSNum.fin 0 := by
    simp only [JSNum.ofInt]
    rw [js_div_fin_pos _ _ (by norm_num)]
    norm_num
  have hdivn : JSNum.div JSNum.nan (JSNum.ofInt 100) = JSNum.nan := by
    simp [JSNum.div, JSNum.isNaN]
  have hr0 : onloadRect (JSNum.ofNat 100) (JSNum.ofNat 100) 0 100 (JSNum.fin 0)
      = { drawX := JSNum.fin (-50), drawY := JSNum.fin 0
          drawWidth := JSNum.fin 100, drawHeight := JSNum.fin 100 } := by
    simp only [JSNum.ofNat]
    rw [onloadRect_fin _ _ _ _ _ (by norm_num) (by norm_num)]
    norm_num [onloadFit, JSRect.ofRat]
  have hrn : onloadRect (JSNum.ofNat 100) (JSNum.ofNat 100) 0 100 JSNum.nan
      = { drawX := JSNum.fin 0, drawY := JSNum.fin 50
          drawWidth := JSNum.fin 0, drawHeight := JSNum.fin 0 } := by
    have hg : isWider (JSNum.div (JSNum.ofNat 100) (JSNum.ofNat 100)) JSNum.nan = false := by
      simp [isWider, JSNum.gt, JSNum.isNaN]
    simp only [onloadRect, hg]
    simp only [JSNum.ofNat, scaleByWidth]
    rw [js_div_fin_pos _ _ (by norm_num), js_div_fin_pos _ _ (by norm_num), js_sub_fin,
      js_div_fin_pos _ _ (by norm_num)]
    norm_num
  refine ⟨by decide, ?_, by decide, ?_, by decide⟩
  · rw [batchArtifacts_eq]
    simp only [sampleEditor, List.length_singleton, List.range_succ, List.range_zero,
      List.nil_append, List.filterMap_cons, List.filterMap_nil, downloadAt,
      List.getElem?_cons_zero, hname, hc0, hch, hdiv, hr0]
  · rw [parsedArtifacts_eq]
    simp only [sampleEditor, List.length_singleton, List.range_succ, List.range_zero,
      List.nil_append, List.filterMap_cons, List.filterMap_nil, downloadAt,
      List.getElem?_cons_zero, hname, hcn, hch, hdivn, hrn]

/-- C6, amended. `exportBatch` checks no dimension and has no failure for one:
whatever the two target fields parse to (`NaN`, a zero, a negative or any other
number), every image that decodes has its rectangle computed by the fit step
and its download triggered, on a canvas of the size read back, and the only
toast of the call is the completion toast. -/
theorem exportBatch_no_dimension_check (s : Editor) (load : ℕ → Option Image)
    (tw th : JSNum) (i : ℕ) (item : ImageItem) (img : Image)
    (hi : s.images[i]? = some item) (hl : load i = some img) :
    { download := batchFileName i item
      canvasWidth := canvasReadBack 300 tw
      canvasHeight := canvasReadBack 150 th
      rect := batchFit (JSNum.ofNat img.width) (JSNum.ofNat img.height) tw th }
      ∈ parsedArtifacts s load tw th ∧
    parsedToasts s load tw th
      = [{ text := batchDoneText s.images.length, type := "success" }] := by
  have hlt : i < s.images.length := by
    rcases List.getElem?_eq_some.mp hi with ⟨hlt, _⟩
    exact hlt
  have hne : s.images ≠ [] := by
    intro h; rw [h] at hlt; simp at hlt
  have hd : downloadAt s.images load tw th (JSNum.div tw th) i
      = some { download := batchFileName i item
               canvasWidth := canvasReadBack 300 tw
               canvasHeight := canvasReadBack 150 th
               rect := batchFit (JSNum.ofNat img.width) (JSNum.ofNat img.height) tw th } := by
    simp [downloadAt, hi, hl, batchFit]
  have hmem := List.mem_filterMap.mpr ⟨i, List.mem_range.mpr hlt, hd⟩
  rw [← parsedArtifacts_eq] at hmem
  exact ⟨hmem, parsedToasts_eq s load tw th hne⟩

/-- Witness of the amended C6: a width field that parses to `NaN`, height 100,
one 100x100 image. -/
theorem exportBatch_no_dimension_check_witness :
    { download := batchFileName 0 (sampleItem "a.png" 100 100)
      canvasWidth := canvasReadBack 300 JSNum.nan
      canvasHeight := canvasReadBack 150 (JSNum.ofInt 100)
      rect := batchFit (JSNum.ofNat ({ width := 100, height := 100 } : Image).width)
        (JSNum.ofNat ({ width := 100, height := 100 } : Image).height)
        JSNum.nan (JSNum.ofInt 100) }
      ∈ parsedArtifacts (sampleEditor [sampleItem "a.png" 100 100] 0 100 false 1)
          (fun _ => some { width := 100, height := 100 }) JSNum.nan (JSNum.ofInt 100) ∧
    parsedToasts (sampleEditor [sampleItem "a.png" 100 100] 0 100 false 1)
        (fun _ => some { width := 100, height := 100 }) JSNum.nan (JSNum.ofInt 100)
      = [{ text := batchDoneText
            (sampleEditor [sampleItem "a.png" 100 100] 0 100 false 1).images.length
           type := "success" }] :=
  exportBatch_no_dimension_check (sampleEditor [sampleItem "a.png" 100 100] 0 100 false 1)
    (fun _ => some { width := 100, height := 100 }) JSNum.nan (JSNum.ofInt 100) 0
    (sampleItem "a.png" 100 100) { width := 100, height := 100 } (by decide) rfl

/-! ## Upload cap -/

/-- C8. When more than 50 of the offered files are image files, `processFiles`
only shows the count error: the editor is otherwise unchanged, so no read is
started and `images` is as before.  With 1 to 50 image files it shows no error,
raises the loading state and starts one read per image file, in order. -/
theorem processFiles_count_cap (s : Editor) (files : List File) :
    (50 < (files.filter isImageFile).length →
      processFiles s files = showToast s "最多支持上传50张图片" "error" ∧
      (processFiles s files).reads = s.reads ∧
      (processFiles s files).images = s.images) ∧
    (1 ≤ (files.filter isImageFile).length → (files.filter isImageFile).length ≤ 50 →
      (processFiles s files).reads = s.reads ++ files.filter isImageFile ∧
      (processFiles s files).toasts = s.toasts ∧
      (processFiles s files).isProcessing = true ∧
      (processFiles s files).images = s.images) := by
  constructor
  · intro h
    have h0 : (files.filter isImageFile).length ≠ 0 := by omega
    have hp : processFiles s files = showToast s "最多支持上传50张图片" "error" := by
      unfold processFiles
      simp only [h0, if_false, gt_iff_lt, h, if_true]
    rw [hp]
    exact ⟨rfl, rfl, rfl⟩
  · intro h1 h50
    have h0 : (files.filter isImageFile).length ≠ 0 := by omega
    have hn : ¬ (files.filter isImageFile).length > 50 := by omega
    have hp : processFiles s files
        = { showLoading s with reads := (showLoading s).reads ++ files.filter isImageFile } := by
      unfold processFiles
      simp only [h0, if_false, hn]
    rw [hp]
    exact ⟨rfl, rfl, rfl, rfl⟩

/-- Witness of C8: 51 PNG files are rejected whole; of two PNG files and a text
file the two PNG files are read. -/
theorem processFiles_count_cap_witness :
    (processFiles (sampleEditor threeImages 200 100 true 2) fiftyOneFiles
        = showToast (sampleEditor threeImages 200 100 true 2) "最多支持上传50张图片" "error" ∧
      (processFiles (sampleEditor threeImages 200 100 true 2) fiftyOneFiles).reads
        = (sampleEditor threeImages 200 100 true 2).reads ∧
      (processFiles (sampleEditor threeImages 200 100 true 2) fiftyOneFiles).images
        = (sampleEditor threeImages 200 100 true 2).images) ∧
    ((processFiles (sampleEditor threeImages 200 100 true 2) mixedFiles).reads
        = (sampleEditor threeImages 200 100 true 2).reads ++ mixedFiles.filter isImageFile ∧
      (processFiles (sampleEditor threeImages 200 100 true 2) mixedFiles).toasts
        = (sampleEditor threeImages 200 100 true 2).toasts ∧
      (processFiles (sampleEditor threeImages 200 100 true 2) mixedFiles).isProcessing = true ∧
      (processFiles (sampleEditor threeImages 200 100 true 2) mixedFiles).images
        = (sampleEditor threeImages 200 100 true 2).images) :=
  ⟨(processFiles_count_cap (sampleEditor threeImages 200 100 true 2) fiftyOneFiles).1
      (by decide),
   (processFiles_count_cap (sampleEditor threeImages 200 100 true 2) mixedFiles).2
      (by decide) (by decide)⟩

/-! ## Ratio lock -/

/-- `Math.round` is within one half of its argument. -/
lemma mathRound_near (x : ℚ) : |((mathRound x : ℤ) : ℚ) - x| ≤ 1 / 2 := by
  unfold mathRound
  have h1 := Int.floor_le (x + 1 / 2)
  have h2 := Int.lt_floor_add_one (x + 1 / 2)
  rw [abs_le]
  constructor <;> linarith

/-- `Math.round` of a non-negative number is non-negative. -/
lemma mathRound_nonneg {x : ℚ} (hx : 0 ≤ x) : 0 ≤ mathRound x := by
  unfold mathRound
  rw [Int.floor_nonneg]
  linarith

/-- `Math.round` is positive exactly from one half on. -/
lemma mathRound_pos (x : ℚ) : 0 < mathRound x ↔ 1 / 2 ≤ x := by
  unfold mathRound
  rw [Int.floor_pos]
  constructor <;> intro h <;> linarith

/-- C9 as stated fails: with the ratio locked at 3, typing width 1 sets the
height field to 0; with the ratio locked at 1/3, typing height 1 sets the width
field to 0.  The computed field is not a positive integer. -/
theorem ratio_lock_counterexample :
    (sampleEditor threeImages 200 100 true 3).keepRatio = true ∧
    0 < (sampleEditor threeImages 200 100 true 3).aspectRatio ∧
    (inputWidth (sampleEditor threeImages 200 100 true 3) 1).widthInput = 1 ∧
    (inputWidth (sampleEditor threeImages 200 100 true 3) 1).heightInput = 0 ∧
    0 < (sampleEditor threeImages 200 100 true (1 / 3)).aspectRatio ∧
    (inputHeight (sampleEditor threeImages 200 100 true (1 / 3)) 1).heightInput = 1 ∧
    (inputHeight (sampleEditor threeImages 200 100 true (1 / 3)) 1).widthInput = 0 := by
  refine ⟨rfl, by norm_num [sampleEditor], rfl, ?_, by norm_num [sampleEditor], rfl, ?_⟩
  · simp only [inputWidth, handleWidthChange, sampleEditor, if_true, mathRound]
    rw [Int.floor_eq_iff]
    norm_num
  · simp only [inputHeight, handleHeightChange, sampleEditor, if_true, mathRound]
    rw [Int.floor_eq_iff]
    norm_num

/-- C9, amended. With keep-aspect-ratio checked and locked ratio r > 0: after a
positive integer width w is typed, the width field holds w and the height field
holds an integer within 1/2 of w / r, which is non-negative, and positive
exactly when r <= 2 w; after a positive integer height h is typed, the height
field holds h and the width field holds an integer within 1/2 of h * r, which
is non-negative, and positive exactly when 1 <= 2 h r. -/
theorem ratio_lock_rounding (s : Editor) (w h : ℤ) (hk : s.keepRatio = true)
    (hr : 0 < s.aspectRatio) (hw : 0 < w) (hh : 0 < h) :
    ((inputWidth s w).widthInput = w ∧
      |((inputWidth s w).heightInput : ℚ) - (w : ℚ) / s.aspectRatio| ≤ 1 / 2 ∧
      0 ≤ (inputWidth s w).heightInput ∧
      (0 < (inputWidth s w).heightInput ↔ s.aspectRatio ≤ 2 * (w : ℚ))) ∧
    ((inputHeight s h).heightInput = h ∧
      |((inputHeight s h).widthInput : ℚ) - (h : ℚ) * s.aspectRatio| ≤ 1 / 2 ∧
      0 ≤ (inputHeight s h).widthInput ∧
      (0 < (inputHeight s h).widthInput ↔ 1 ≤ 2 * (h : ℚ) * s.aspectRatio)) := by
  have hwq : (0 : ℚ) < (w : ℚ) := by exact_mod_cast hw
  have hhq : (0 : ℚ) < (h : ℚ) := by exact_mod_cast hh
  have e1 : (inputWidth s w).heightInput = mathRound ((w : ℚ) / s.aspectRatio) := by
    simp [inputWidth, handleWidthChange, hk]
  have e2 : (inputWidth s w).widthInput = w := by
    simp [inputWidth, handleWidthChange, hk]
  have e3 : (inputHeight s h).widthInput = mathRound ((h : ℚ) * s.aspectRatio) := by
    simp [inputHeight, handleHeightChange, hk]
  have e4 : (inputHeight s h).heightInput = h := by
    simp [inputHeight, handleHeightChange, hk]
  rw [e1, e2, e3, e4]
  refine ⟨⟨rfl, mathRound_near _, mathRound_nonneg (le_of_lt (div_pos hwq hr)), ?_⟩,
    ⟨rfl, mathRound_near _, mathRound_nonneg (le_of_lt (mul_pos hhq hr)), ?_⟩⟩
  · rw [mathRound_pos, le_div_iff₀ hr]
    constructor <;> intro h0 <;> linarith
  · rw [mathRound_pos]
    constructor <;> intro h0 <;> linarith

/-- Witness of the amended C9 at locked ratio 3/2, width 300 and height 200. -/
theorem ratio_lock_rounding_witness :
    ((inputWidth (sampleEditor threeImages 200 100 true (3 / 2)) 300).widthInput = 300 ∧
      |((inputWidth (sampleEditor threeImages 200 100 true (3 / 2)) 300).heightInput : ℚ)
        - ((300 : ℤ) : ℚ) / (sampleEditor threeImages 200 100 true (3 / 2)).aspectRatio| ≤ 1 / 2 ∧
      0 ≤ (inputWidth (sampleEditor threeImages 200 100 true (3 / 2)) 300).heightInput ∧
      (0 < (inputWidth (sampleEditor threeImages 200 100 true (3 / 2)) 300).heightInput ↔
        (sampleEditor threeImages 200 100 true (3 / 2)).aspectRatio ≤ 2 * ((300 : ℤ) : ℚ))) ∧
    ((inputHeight (sampleEditor threeImages 200 100 true (3 / 2)) 200).heightInput = 200 ∧
      |((inputHeight (sampleEditor threeImages 200 100 true (3 / 2)) 200).widthInput : ℚ)
        - ((200 : ℤ) : ℚ) * (sampleEditor threeImages 200 100 true (3 / 2)).aspectRatio| ≤ 1 / 2 ∧
      0 ≤ (inputHeight (sampleEditor threeImages 200 100 true (3 / 2)) 200).widthInput ∧
      (0 < (inputHeight (sampleEditor threeImages 200 100 true (3 / 2)) 200).widthInput ↔
        1 ≤ 2 * ((200 : ℤ) : ℚ) * (sampleEditor threeImages 200 100 true (3 / 2)).aspectRatio)) :=
  ratio_lock_rounding (sampleEditor threeImages 200 100 true (3 / 2)) 300 200 rfl
    (by norm_num [sampleEditor]) (by norm_num) (by norm_num)

/-! ## Removal -/

/-- Closed form of `removeImage` on a valid state: it returns, with element
`index` erased and the selected index as computed here. -/
lemma removeImage_index (s : Editor) (i c : ℕ) (hc : s.currentImageIndex = (c : ℤ))
    (hcn : c < s.images.length) (hi : i < s.images.length) :
    ∃ t, removeImage s i = some t ∧ t.images = s.images.eraseIdx i ∧
      t.currentImageIndex
        = (if s.images.length = 1 then -1
           else if s.images.length = 2 then 0
           else if c = i then min (i : ℤ) ((s.images.length : ℤ) - 2)
           else if i < c then (c : ℤ) - 1
           else (c : ℤ)) := by
  obtain ⟨images, cur, ar, ip, wi, he, kr, ts, rs, ds, ce⟩ := s
  simp only at hc hcn hi ⊢
  subst hc
  have hitem : images[i]? = some (images[i]) := List.getElem?_eq_getElem hi
  obtain ⟨m, hm⟩ : ∃ m, images.length = m + 1 := ⟨images.length - 1, by omega⟩
  have hlen : (images.eraseIdx i).length = m := by
    rw [List.length_eraseIdx_of_lt hi, hm]; rfl
  rw [hm] at hcn hi
  unfold removeImage
  simp only [hitem, hm]
  generalize images.eraseIdx i = rest at hlen ⊢
  by_cases hm1 : m = 1
  · by_cases hi0 : i = 0
    · simp [updateImageList, selectImage, hlen, hm1, hi0, showToast]
    · have hi1 : ¬ ((0 : ℤ) = (i : ℤ)) := by omega
      have hi2 : ¬ ((i : ℤ) < (0 : ℤ)) := by omega
      simp [updateImageList, selectImage, hlen, hm1, hi1, hi2, showToast]
  · by_cases hci : c = i
    · by_cases hm0 : m = 0
      · simp [updateImageList, selectImage, hlen, hm0, hci, showToast]
      · have hpos : 0 < m := Nat.pos_of_ne_zero hm0
        have hb : 0 ≤ min (i : ℤ) ((m : ℤ) - 1) ∧ min (i : ℤ) ((m : ℤ) - 1) < (m : ℤ) := by
          omega
        simp [updateImageList, selectImage, hlen, hm0, hm1, hci, hpos, hb, showToast]
        omega
    · have h1 : ¬ ((c : ℤ) = (i : ℤ)) := by omega
      have hm0 : m ≠ 0 := by omega
      by_cases hgt : i < c
      · have h2 : (i : ℤ) < (c : ℤ) := by omega
        simp [updateImageList, hlen, h1, h2, showToast, hm0, hm1, hci, hgt]
      · have h2 : ¬ ((i : ℤ) < (c : ℤ)) := by omega
        simp [updateImageList, hlen, h1, h2, showToast, hm0, hm1, hci, hgt]

/-- C10. For every state with a non-empty image list and a valid selected index,
and every valid index i, `removeImage i` returns; afterwards the list is the old
list without element i, the selected index is -1 exactly when the list became
empty and otherwise lies inside the list, and when i was not the selected index
the selected entry is the image that was selected before. -/
theorem removeImage_selection (s : Editor) (i : ℕ) (hne : s.images ≠ [])
    (h0 : 0 ≤ s.currentImageIndex) (h1 : s.currentImageIndex < s.images.length)
    (hi : i < s.images.length) :
    ∃ t, removeImage s i = some t ∧
      t.images = s.images.eraseIdx i ∧
      (t.currentImageIndex = -1 ↔ t.images = []) ∧
      (t.images ≠ [] → 0 ≤ t.currentImageIndex ∧ t.currentImageIndex < t.images.length) ∧
      (s.currentImageIndex ≠ i →
        t.images[t.currentImageIndex.toNat]? = s.images[s.currentImageIndex.toNat]?) := by
  have _ := hne
  obtain ⟨c, hc⟩ := Int.eq_ofNat_of_zero_le h0
  have hcn : c < s.images.length := by
    rw [hc] at h1; exact_mod_cast h1
  obtain ⟨t, ht, himg, hidx⟩ := removeImage_index s i c hc hcn hi
  have hlen : t.images.length = s.images.length - 1 := by
    rw [himg]; exact List.length_eraseIdx_of_lt hi
  have hnil : t.images = [] ↔ t.images.length = 0 := List.length_eq_zero.symm
  refine ⟨t, ht, himg, ?_, ?_, ?_⟩
  · rw [hnil, hlen]
    split_ifs at hidx <;> omega
  · intro hne2
    have hpos : t.images.length ≠ 0 := fun h => hne2 (hnil.mpr h)
    rw [hlen] at hpos ⊢
    split_ifs at hidx <;> omega
  · intro hsel
    have hci : c ≠ i := by
      intro h; apply hsel; rw [hc, h]
    rw [hc, Int.toNat_ofNat, himg, List.getElem?_eraseIdx, hidx]
    by_cases hn1 : s.images.length = 1
    · omega
    · by_cases hn2 : s.images.length = 2
      · simp only [hn1, hn2, if_false, if_true, Int.toNat_zero]
        by_cases hi0 : i = 0
        · have hc1 : c = 1 := by omega
          simp [hi0, hc1]
        · have hc0 : c = 0 := by omega
          have hipos : 0 < i := Nat.pos_of_ne_zero hi0
          simp [hipos, hc0]
      · simp only [hn1, hn2, hci, if_false]
        by_cases hgt : i < c
        · have e : ((c : ℤ) - 1).toNat = c - 1 := by omega
          have hnlt : ¬ (c - 1 < i) := by omega
          have e2 : c - 1 + 1 = c := by omega
          simp only [hgt, if_true, e, hnlt, if_false, e2]
        · have hlt : c < i := by omega
          simp only [hgt, if_false, Int.toNat_ofNat, hlt, if_true]

/-- Witness of C10: of three images with the first selected, the second is
removed. -/
theorem removeImage_selection_witness :
    ∃ t, removeImage (sampleEditor threeImages 200 100 true 2) 1 = some t ∧
      t.images = (sampleEditor threeImages 200 100 true 2).images.eraseIdx 1 ∧
      (t.currentImageIndex = -1 ↔ t.images = []) ∧
      (t.images ≠ [] → 0 ≤ t.currentImageIndex ∧ t.currentImageIndex < t.images.length) ∧
      ((sampleEditor threeImages 200 100 true 2).currentImageIndex ≠ ((1 : ℕ) : ℤ) →
        t.images[t.currentImageIndex.toNat]?
          = (sampleEditor threeImages 200 100 true 2).images[
              (sampleEditor threeImages 200 100 true 2).currentImageIndex.toNat]?) :=
  removeImage_selection (sampleEditor threeImages 200 100 true 2) 1 (by decide) (by decide)
    (by decide) (by decide)

end ImageEditor
